import Mathlib

/-!
Verification development for the baby_names scraper (src/babynames.py).

The Python module is shallowly embedded: Python dicts become insertion-ordered
association lists, JSON-able Python values become the type PyVal, exceptions
become the Except monad over PyErr, and the network boundary (BeautifulSoup
documents, requests responses) is abstracted into structures carrying exactly
the texts and markers the scraper reads off a page.  Every function is a
direct transcription of the corresponding code in babynames.py; line numbers
in comments refer to that file.
-/

/-- Python exception kinds raised by the embedded code paths. -/
inductive PyErr where
  | keyError
  | typeError
  | valueError
  | indexError
  | assertionError
deriving DecidableEq, Repr

/-- Network failures caught by the try/except in scrape_first_name_page
(lines 76-89): ConnectionError and TimeoutError. -/
inductive NetErr where
  | connectionError
  | timeoutError
deriving DecidableEq, Repr

/-- Keys of Python dicts occurring in this program: strings everywhere except
the SSA statistics, which use integer year keys. -/
inductive PyKey where
  | str (s : String)
  | int (n : Int)
deriving DecidableEq, Repr

/-- JSON-serialisable Python values built by the scraper.  The only floats
the program stores are the probabilities round(float(..) / 100, 7), exact
integer multiples of 10 to the -7; float7 k denotes the float k times 10 to
the -7. -/
inductive PyVal where
  | str (s : String)
  | int (n : Int)
  | bool (b : Bool)
  | float7 (k : Int)
  | list (xs : List PyVal)
  | dict (kvs : List (PyKey × PyVal))
deriving Repr

mutual

/-- Structural (boolean) equality on PyVal.  All dicts built by this program
insert their keys in one canonical order, so structural equality of the
association lists coincides with Python dict equality on the reachable data. -/
def PyVal.beq : PyVal → PyVal → Bool
  | .str a, .str b => a == b
  | .int a, .int b => a == b
  | .bool a, .bool b => a == b
  | .float7 a, .float7 b => a == b
  | .list xs, .list ys => PyVal.beqList xs ys
  | .dict xs, .dict ys => PyVal.beqDict xs ys
  | _, _ => false

/-- Pointwise PyVal.beq on lists. -/
def PyVal.beqList : List PyVal → List PyVal → Bool
  | [], [] => true
  | x :: xs, y :: ys => PyVal.beq x y && PyVal.beqList xs ys
  | _, _ => false

/-- Pointwise PyVal.beq on dict entry lists. -/
def PyVal.beqDict : List (PyKey × PyVal) → List (PyKey × PyVal) → Bool
  | [], [] => true
  | (k, v) :: xs, (k', v') :: ys => decide (k = k') && PyVal.beq v v' && PyVal.beqDict xs ys
  | _, _ => false

end

mutual

theorem PyVal.beq_iff : ∀ a b : PyVal, PyVal.beq a b = true ↔ a = b
  | .str a, .str b => by simp [PyVal.beq]
  | .int a, .int b => by simp [PyVal.beq]
  | .bool a, .bool b => by simp [PyVal.beq]
  | .float7 a, .float7 b => by simp [PyVal.beq]
  | .list xs, .list ys => by
      simp only [PyVal.beq]
      rw [PyVal.beqList_iff xs ys]
      constructor
      · intro h; rw [h]
      · intro h; cases h; rfl
  | .dict xs, .dict ys => by
      simp only [PyVal.beq]
      rw [PyVal.beqDict_iff xs ys]
      constructor
      · intro h; rw [h]
      · intro h; cases h; rfl
  | .str _, .int _ => by simp [PyVal.beq]
  | .str _, .bool _ => by simp [PyVal.beq]
  | .str _, .float7 _ => by simp [PyVal.beq]
  | .str _, .list _ => by simp [PyVal.beq]
  | .str _, .dict _ => by simp [PyVal.beq]
  | .int _, .str _ => by simp [PyVal.beq]
  | .int _, .bool _ => by simp [PyVal.beq]
  | .int _, .float7 _ => by simp [PyVal.beq]
  | .int _, .list _ => by simp [PyVal.beq]
  | .int _, .dict _ => by simp [PyVal.beq]
  | .bool _, .str _ => by simp [PyVal.beq]
  | .bool _, .int _ => by simp [PyVal.beq]
  | .bool _, .float7 _ => by simp [PyVal.beq]
  | .bool _, .list _ => by simp [PyVal.beq]
  | .bool _, .dict _ => by simp [PyVal.beq]
  | .float7 _, .str _ => by simp [PyVal.beq]
  | .float7 _, .int _ => by simp [PyVal.beq]
  | .float7 _, .bool _ => by simp [PyVal.beq]
  | .float7 _, .list _ => by simp [PyVal.beq]
  | .float7 _, .dict _ => by simp [PyVal.beq]
  | .list _, .str _ => by simp [PyVal.beq]
  | .list _, .int _ => by simp [PyVal.beq]
  | .list _, .bool _ => by simp [PyVal.beq]
  | .list _, .float7 _ => by simp [PyVal.beq]
  | .list _, .dict _ => by simp [PyVal.beq]
  | .dict _, .str _ => by simp [PyVal.beq]
  | .dict _, .int _ => by simp [PyVal.beq]
  | .dict _, .bool _ => by simp [PyVal.beq]
  | .dict _, .float7 _ => by simp [PyVal.beq]
  | .dict _, .list _ => by simp [PyVal.beq]

theorem PyVal.beqList_iff : ∀ xs ys : List PyVal, PyVal.beqList xs ys = true ↔ xs = ys
  | [], [] => by simp [PyVal.beqList]
  | x :: xs, y :: ys => by
      simp only [PyVal.beqList, Bool.and_eq_true]
      rw [PyVal.beq_iff x y, PyVal.beqList_iff xs ys]
      simp
  | [], _ :: _ => by simp [PyVal.beqList]
  | _ :: _, [] => by simp [PyVal.beqList]

theorem PyVal.beqDict_iff : ∀ xs ys : List (PyKey × PyVal), PyVal.beqDict xs ys = true ↔ xs = ys
  | [], [] => by simp [PyVal.beqDict]
  | (k, v) :: xs, (k', v') :: ys => by
      simp only [PyVal.beqDict, Bool.and_eq_true, decide_eq_true_eq]
      rw [PyVal.beq_iff v v', PyVal.beqDict_iff xs ys]
      constructor
      · rintro ⟨⟨h1, h2⟩, h3⟩; subst h1; subst h2; subst h3; rfl
      · intro h; cases h; exact ⟨⟨rfl, rfl⟩, rfl⟩
  | [], _ :: _ => by simp [PyVal.beqDict]
  | _ :: _, [] => by simp [PyVal.beqDict]

end

instance : DecidableEq PyVal := fun a b => decidable_of_iff _ (PyVal.beq_iff a b)

instance exceptDecEq [DecidableEq ε] [DecidableEq α] : DecidableEq (Except ε α) := fun x y =>
  match x, y with
  | .ok a, .ok b =>
      if h : a = b then isTrue (by rw [h]) else isFalse (fun hh => h (Except.ok.inj hh))
  | .error a, .error b =>
      if h : a = b then isTrue (by rw [h]) else isFalse (fun hh => h (Except.error.inj hh))
  | .ok _, .error _ => isFalse (fun hh => Except.noConfusion hh)
  | .error _, .ok _ => isFalse (fun hh => Except.noConfusion hh)

/-- Lookup of a key in a Python dict modelled as an association list
(first binding wins). -/
def assocGet [DecidableEq κ] (l : List (κ × α)) (k : κ) : Option α :=
  match l with
  | [] => none
  | (k', v) :: t => if k' = k then some v else assocGet t k

/-- Membership test for a key, as used by dict item assignment. -/
def assocHasKey [DecidableEq κ] (l : List (κ × α)) (k : κ) : Bool :=
  l.any (fun p => decide (p.1 = k))

/-- Python dict item assignment d[k] = v: overwrite the binding in place if
the key is present (keeping its position), otherwise append it at the end. -/
def assocSet [DecidableEq κ] (l : List (κ × α)) (k : κ) (v : α) : List (κ × α) :=
  if assocHasKey l k then l.map (fun p => if p.1 = k then (k, v) else p)
  else l ++ [(k, v)]

/-- Python dict.setdefault(k, v0): returns the (possibly extended) dict and
the value now bound to k. -/
def assocSetdefault [DecidableEq κ] (l : List (κ × α)) (k : κ) (v0 : α) :
    List (κ × α) × α :=
  match assocGet l k with
  | some v => (l, v)
  | none => (l ++ [(k, v0)], v0)

/-- Models the idiom x = d.setdefault(k, v0) followed by an in-place mutation
of x by f, as done on the nested SSA statistics dicts (lines 161-167). -/
def assocMod [DecidableEq κ] (l : List (κ × α)) (k : κ) (v0 : α) (f : α → α) :
    List (κ × α) :=
  match assocGet l k with
  | some v => assocSet l k (f v)
  | none => l ++ [(k, f v0)]

/-- Whitespace characters stripped by Python str.strip and str.split
(the ASCII ones, which are the only ones occurring in the scraped texts). -/
def isPySpace (c : Char) : Bool :=
  c == ' ' || c == '\t' || c == '\n' || c == '\r' || c == '\x0b' || c == '\x0c'

/-- Python str.strip on a character list: drop leading and trailing
whitespace. -/
def pyStripChars (l : List Char) : List Char :=
  ((l.dropWhile isPySpace).reverse.dropWhile isPySpace).reverse

/-- Python str.strip. -/
def pyStripStr (s : String) : String := ⟨pyStripChars s.data⟩

/-- Numeric value of a digit run (only applied to all-digit runs). -/
def digitsVal (cs : List Char) : Nat :=
  cs.foldl (fun a c => a * 10 + (c.toNat - 48)) 0

/-- Parses a nonempty run of decimal digits, else none. -/
def digitsToNat? (cs : List Char) : Option Nat :=
  match cs with
  | [] => none
  | _ => if cs.all Char.isDigit then some (digitsVal cs) else none

/-- Python int(str) on the decimal literals this program feeds it: optional
surrounding whitespace, optional sign, nonempty digit run; anything else
raises ValueError. -/
def pyIntE (s : String) : Except PyErr Int :=
  match pyStripChars s.data with
  | '-' :: r =>
      match digitsToNat? r with
      | some n => .ok (-(n : Int))
      | none => .error .valueError
  | '+' :: r =>
      match digitsToNat? r with
      | some n => .ok (n : Int)
      | none => .error .valueError
  | r =>
      match digitsToNat? r with
      | some n => .ok (n : Int)
      | none => .error .valueError

/-- An exact decimal fraction num over 10 to the exp, the value class of
every float this program computes with. -/
structure DecFrac where
  num : Int
  exp : Nat
deriving DecidableEq, Repr

/-- Python float(str) on the simple decimal literals this program feeds it
(optional sign, digits with at most one decimal point), as an exact decimal
fraction; anything else raises ValueError. -/
def pyFloatE (s : String) : Except PyErr DecFrac :=
  let t0 := pyStripChars s.data
  let sgn : Int := match t0 with
    | '-' :: _ => -1
    | _ => 1
  let t : List Char := match t0 with
    | '-' :: r => r
    | '+' :: r => r
    | r => r
  let ip := t.takeWhile (fun c => c != '.')
  match t.dropWhile (fun c => c != '.') with
  | [] =>
      match digitsToNat? ip with
      | some n => .ok ⟨sgn * n, 0⟩
      | none => .error .valueError
  | _ :: fp =>
      if fp.contains '.' then .error .valueError
      else if ip.isEmpty && fp.isEmpty then .error .valueError
      else if ip.all Char.isDigit && fp.all Char.isDigit then
        .ok ⟨sgn * (digitsVal ip * 10 ^ fp.length + digitsVal fp), fp.length⟩
      else .error .valueError

/-- Rounding of the fraction a over d (with d positive) to the nearest
integer, ties to even: the tie rule used by Python round. -/
def roundHalfToEvenFrac (a : Int) (d : Nat) : Int :=
  let f := a.fdiv (d : Int)
  let r := a.fmod (d : Int)
  if 2 * r < (d : Int) then f
  else if (d : Int) < 2 * r then f + 1
  else if f % 2 = 0 then f else f + 1

/-- Python round(x, 7) on the exact decimal model: the numerator of the
result over 10 to the 7. -/
def pyRound7 (q : DecFrac) : Int :=
  roundHalfToEvenFrac (q.num * ((10 ^ 7 : Nat) : Int)) (10 ^ q.exp)

/-- The rational value denoted by PyVal.float7 k. -/
def float7Val (k : Int) : ℚ := (k : ℚ) / 10 ^ 7

/-- Python s[:-1]: drop the final character (identity on the empty string). -/
def strDropLast (s : String) : String := ⟨s.data.dropLast⟩

/-- Python s.replace(",", ""): delete every comma. -/
def removeCommas (s : String) : String := ⟨s.data.filter (fun c => c != ',')⟩

/-- Python s.split() with no argument: split on whitespace runs, discarding
empty pieces. -/
def pySplitWs (s : String) : List String :=
  (s.split isPySpace).filter (fun t => t != "")

/-- Python substring test needle in hay for strings. -/
def strContainsSub (hay needle : String) : Bool :=
  (hay.data.tails).any (fun t => needle.data.isPrefixOf t)

/-- Removes a leading opening parenthesis, if present, from the part left
after the digits of the matched suffix have been dropped. -/
def dropParen : List Char → List Char
  | '(' :: r => r
  | r => r

/-- Removes, from the REVERSED character list, the reversal of the leftmost
(hence longest) suffix matching the regex of normalize_name: an optional
opening parenthesis, one or more digits, an optional closing parenthesis. -/
def stripNumSuffixRev (l : List Char) : List Char :=
  match l with
  | [] => []
  | c :: rest =>
      if c = ')' then
        if (rest.takeWhile Char.isDigit).isEmpty then l
        else dropParen (rest.dropWhile Char.isDigit)
      else if c.isDigit then dropParen (l.dropWhile Char.isDigit)
      else l

/-- Python re.sub applied to the anchored pattern of normalize_name (line 24).
The dollar anchor of Python re also matches just before a newline that ends
the string, and no pattern character can be a newline, so a trailing newline
is held out of the search. -/
def reSubNumSuffix (l : List Char) : List Char :=
  if l.getLast? = some '\n' then (stripNumSuffixRev l.dropLast.reverse).reverse ++ ['\n']
  else (stripNumSuffixRev l.reverse).reverse

/-- normalize_name (lines 23-24): strip a trailing optionally-parenthesised
number, then surrounding whitespace. -/
def normalize_name (s : String) : String :=
  ⟨pyStripChars (reSubNumSuffix s.data)⟩

/-- A Python dict representing one name record (entry_data in the source);
its keys are always strings, its values arbitrary PyVal. -/
abbrev Record := List (String × PyVal)

/-- One of the two mappings of name_info (line 31): normalized name to the
ordered sequence of its records. -/
abbrev Store := List (String × List Record)

/-- The data process_name_entry (lines 44-65) reads off one browsename div:
the listname span text, presence of masc and fem gender spans, the texts of
the usg language links, the texts of the siblings following the first br tag,
and the texts of the nl related-name links.  The href of the first anchor and
the outcome of fetching its rating page (used only when get_ratings is set)
are carried alongside. -/
structure RatingTable where
  rows : List (List String)
  nextSiblingText : String
deriving DecidableEq, Repr

/-- The parsed rating page: the ratings table with cellspacing 10, if any. -/
structure RatingPage where
  table : Option RatingTable
deriving DecidableEq, Repr

/-- Outcome of get_soup on the rating url: either the parsed page, or a
ConnectionError or TimeoutError raised by the transport. -/
inductive FetchResult where
  | ok (page : RatingPage)
  | netfail (e : NetErr)
deriving DecidableEq, Repr

structure ListingEntry where
  listname : String
  hasMasc : Bool
  hasFem : Bool
  usgTexts : List String
  brSiblingTexts : List String
  nlTexts : List String
  ratingFetch : FetchResult
deriving DecidableEq, Repr

/-- process_name_entry (lines 43-65): normalize the listname, build the
gender marker string, collect languages, concatenate the description pieces,
normalize the related names, and assemble the record dict in the insertion
order of the source: gender (when nonempty), languages, descr, related
(when nonempty). -/
def process_name_entry (e : ListingEntry) : String × Record :=
  let name := normalize_name e.listname
  let gender := (if e.hasMasc then "M" else "") ++ (if e.hasFem then "F" else "")
  let d0 : Record := if gender ≠ "" then [("gender", PyVal.str gender)] else []
  let d1 : Record := d0 ++
    [("languages", PyVal.list (e.usgTexts.map PyVal.str)),
     ("descr", PyVal.str (String.join e.brSiblingTexts))]
  let d2 : Record :=
    if e.nlTexts ≠ [] then
      d1 ++ [("related", PyVal.list (e.nlTexts.map (fun t => PyVal.str (normalize_name t))))]
    else d1
  (name, d2)

/-- The ratings loop of lines 80-85: for each tr row take the stripped text of
td 0 as the attribute and td 1 with its trailing character removed, parsed as
int, as the percentage; a missing td raises IndexError, a malformed number
ValueError, both uncaught. -/
def buildRatings : List (List String) → List (PyKey × PyVal) →
    Except PyErr (List (PyKey × PyVal))
  | [], acc => .ok acc
  | row :: rest, acc =>
      match row with
      | c0 :: c1 :: _ =>
          match pyIntE (strDropLast c1) with
          | .ok p => buildRatings rest (assocSet acc (PyKey.str (pyStripStr c0)) (PyVal.int p))
          | .error e => .error e
      | _ => .error .indexError

/-- Line 87: int(table.find_next_sibling().text.split()[-2]); a text with
fewer than two whitespace-separated tokens raises IndexError. -/
def parseNumRaters (t : String) : Except PyErr Int :=
  let toks := pySplitWs t
  if h : 2 ≤ toks.length then pyIntE (toks.get ⟨toks.length - 2, by omega⟩)
  else .error .indexError

/-- The dedup-append of lines 90-91: the defaultdict lookup yields the
existing sequence (or an empty one), and entry_data is appended only when no
structurally equal record is already present. -/
def appendFirst (store : Store) (name : String) (ed : Record) : Store :=
  match assocGet store name with
  | some eds =>
      if eds.any (fun x => decide (x = ed)) then store
      else assocSet store name (eds ++ [ed])
  | none => store ++ [(name, [ed])]

/-- The body of the entry loop of scrape_first_name_page (lines 72-91).  With
get_ratings set, a ConnectionError or TimeoutError from the rating fetch is
caught and the whole entry is skipped (continue); a present ratings table is
parsed and its fields added to the record; all other failures propagate. -/
def scrape_first_name_entry (get_ratings : Bool) (store : Store) (e : ListingEntry) :
    Except PyErr Store :=
  let name := (process_name_entry e).1
  let entry_data := (process_name_entry e).2
  if get_ratings then
    match e.ratingFetch with
    | .netfail _ => .ok store
    | .ok page =>
        match page.table with
        | none => .ok (appendFirst store name entry_data)
        | some t =>
            match buildRatings t.rows [] with
            | .error err => .error err
            | .ok ratings =>
                let entry_data := assocSet entry_data "ratings" (PyVal.dict ratings)
                match parseNumRaters t.nextSiblingText with
                | .error err => .error err
                | .ok nr => .ok (appendFirst store name (assocSet entry_data "num_raters" (PyVal.int nr)))
  else .ok (appendFirst store name entry_data)

/-- scrape_first_name_page (lines 66-91) over the browsename entries of one
listing page, threading the first-name store. -/
def scrape_first_name_page (get_ratings : Bool) (store : Store) :
    List ListingEntry → Except PyErr Store
  | [] => .ok store
  | e :: rest =>
      match scrape_first_name_entry get_ratings store e with
      | .error err => .error err
      | .ok s2 => scrape_first_name_page get_ratings s2 rest

/-- Python equality between descr and ed.get("descr") (line 115); comparing
None with None is True, None with a value False. -/
def pyOptEqB (a b : Option PyVal) : Bool :=
  match a, b with
  | none, none => true
  | some x, some y => PyVal.beq x y
  | _, _ => false

/-- The surname dedup-append of lines 113-116: the record is appended only
when its descr differs from the descr of every record already stored under
the name. -/
def appendLastDedup (store : Store) (name : String) (ed : Record) : Store :=
  let descr := assocGet ed "descr"
  match assocGet store name with
  | some eds =>
      if eds.any (fun e0 => pyOptEqB descr (assocGet e0 "descr")) then store
      else assocSet store name (eds ++ [ed])
  | none => store ++ [(name, [ed])]

/-- The body of the entry loop of scrape_last_name_page (lines 110-116):
parse the entry, set the submitted flag, then dedup-append by descr. -/
def scrape_last_name_entry (submit : Bool) (store : Store) (e : ListingEntry) : Store :=
  appendLastDedup store (process_name_entry e).1
    (assocSet (process_name_entry e).2 "submitted" (PyVal.bool submit))

/-- scrape_last_name_page (lines 105-116) over the entries of one page. -/
def scrape_last_name_page (submit : Bool) (store : Store) :
    List ListingEntry → Store
  | [] => store
  | e :: rest => scrape_last_name_page submit (scrape_last_name_entry submit store e) rest

/-- Leftmost-maximum fold, the value computed by Python max on a nonempty
list of ints. -/
def listMaxInt : List Int → Int → Int
  | [], m => m
  | x :: t, m => listMaxInt t (max m x)

/-- Python max(list): ValueError on an empty sequence. -/
def pyMaxE (l : List Int) : Except PyErr Int :=
  match l with
  | [] => .error .valueError
  | x :: t => .ok (listMaxInt t x)

/-- Python range(a, b) over ints. -/
def pyRange (a b : Int) : List Int :=
  (List.range (b - a).toNat).map (fun i => a + i)

/-- Lines 98-100 of scrape_first_names: maxpage = max(pagenums) with no guard
for an empty pagenums list, then the pages 1..maxpage are visited in order. -/
def first_name_pages (pagenums : List Int) : Except PyErr (List Int) :=
  match pyMaxE pagenums with
  | .ok maxpage => .ok (pyRange 1 (maxpage + 1))
  | .error e => .error e

/-- Lines 129-131 of scrape_last_names: maxpage = max(pagenums) if pagenums
else 1, then the pages 1..maxpage are visited in order. -/
def last_name_pages (pagenums : List Int) : List Int :=
  let maxpage := match pagenums with
    | [] => 1
    | x :: t => listMaxInt t x
  pyRange 1 (maxpage + 1)

/-- Per-gender statistics entry of SSA.name_stats: criterion name and rank,
each mapping an (integer) year to a value. -/
abbrev GenderEntry := List (String × List (Int × PyVal))

/-- SSA.name_stats: name, then gender, then the per-gender entry. -/
abbrev Stats := List (String × List (String × GenderEntry))

instance : DecidableEq GenderEntry := inferInstance

instance : DecidableEq Stats := inferInstance

instance : DecidableEq (Except PyErr Stats) := exceptDecEq

/-- The criterion-dependent cell parsing of lines 157 and 159: for criterion n
strip thousands separators and parse as int, otherwise drop the trailing
percent sign, parse as float, divide by 100 and round to 7 decimal places. -/
def parseStatValue (crit : Char) (s : String) : Except PyErr PyVal :=
  if crit = 'n' then
    match pyIntE (removeCommas s) with
    | .ok n => .ok (PyVal.int n)
    | .error e => .error e
  else
    match pyFloatE (strDropLast s) with
    | .ok q => .ok (PyVal.float7 (pyRound7 ⟨q.num, q.exp + 2⟩))
    | .error e => .error e

/-- Lines 161-163 (resp. 165-167): stats.setdefault(name, dict()) then
.setdefault(gender, dict()), then the criterion and rank year entries are
written through the returned references. -/
def updateSide (stats : Stats) (nm gender critName : String) (year : Int)
    (val : PyVal) (rank : Int) : Stats :=
  assocMod stats nm [] (fun d =>
    assocMod d gender [] (fun e =>
      assocMod (assocMod e critName [] (fun m => assocSet m year val))
        "rank" [] (fun m => assocSet m year (PyVal.int rank))))

/-- The assertion of line 155 on one row is modelled by its evaluation order:
len(cols) == 5 is checked first (AssertionError when it fails), then int on
the first column (ValueError on malformed text), then the comparison with the
1-based row index (AssertionError when it fails). -/
def rowCheck (i : Nat) (cols : List String) : Except PyErr Unit :=
  match cols with
  | [c0, _, _, _, _] =>
      match pyIntE c0 with
      | .error e => .error e
      | .ok idx => if idx = (i : Int) + 1 then .ok () else .error .assertionError
  | _ => .error .assertionError

/-- The body of the row loop of SSA.scrape (lines 153-167): assert the row
shape, parse both counts, then update the male and the female side, each
skipped only when its name cell is empty. -/
def stepRow (crit : Char) (critName : String) (year : Int) (stats : Stats)
    (i : Nat) (cols : List String) : Except PyErr Stats :=
  match rowCheck i cols with
  | .error e => .error e
  | .ok _ =>
      match cols with
      | [_, male_name, c2, female_name, c4] =>
          match parseStatValue crit c2 with
          | .error e => .error e
          | .ok male_count =>
              match parseStatValue crit c4 with
              | .error e => .error e
              | .ok female_count =>
                  let stats1 := if male_name.length > 0 then
                    updateSide stats male_name "M" critName year male_count ((i : Int) + 1)
                  else stats
                  let stats2 := if female_name.length > 0 then
                    updateSide stats1 female_name "F" critName year female_count ((i : Int) + 1)
                  else stats1
                  .ok stats2
      | _ => .error .assertionError

/-- The enumerated row loop, threading the statistics. -/
def processRows (crit : Char) (critName : String) (year : Int) :
    Stats → Nat → List (List String) → Except PyErr Stats
  | stats, _, [] => .ok stats
  | stats, i, cols :: rest =>
      match stepRow crit critName year stats i cols with
      | .error e => .error e
      | .ok s2 => processRows crit critName year s2 (i + 1) rest

/-- Processing of one ranking table for one (year, criterion) pair
(lines 152-167): the rows are the td text lists of the tr elements, and the
slice rows[1:-1] drops the header and the footer row before enumeration. -/
def scrapeTable (crit : Char) (critName : String) (year : Int) (stats : Stats)
    (rows : List (List String)) : Except PyErr Stats :=
  processRows crit critName year stats 0 ((rows.drop 1).dropLast)

/-- Conversion of a dict key performed by json.dump: integer keys are written
as their decimal string and read back as strings. -/
def jsonKey : PyKey → PyKey
  | .str s => .str s
  | .int n => .str (toString n)

mutual

/-- The value read back by json.load from the file written by json.dump:
identical except that every non-string dict key has become a string. -/
def jsonVal : PyVal → PyVal
  | .str s => .str s
  | .int n => .int n
  | .bool b => .bool b
  | .float7 k => .float7 k
  | .list xs => .list (jsonValList xs)
  | .dict kvs => .dict (jsonDictList kvs)

def jsonValList : List PyVal → List PyVal
  | [] => []
  | v :: t => jsonVal v :: jsonValList t

def jsonDictList : List (PyKey × PyVal) → List (PyKey × PyVal)
  | [] => []
  | (k, v) :: t => (jsonKey k, jsonVal v) :: jsonDictList t

end

mutual

/-- Holds when every dict key inside the value is a string. -/
def strKeysOnly : PyVal → Bool
  | .str _ => true
  | .int _ => true
  | .bool _ => true
  | .float7 _ => true
  | .list xs => strKeysOnlyList xs
  | .dict kvs => strKeysOnlyDict kvs

def strKeysOnlyList : List PyVal → Bool
  | [] => true
  | v :: t => strKeysOnly v && strKeysOnlyList t

def strKeysOnlyDict : List (PyKey × PyVal) → Bool
  | [] => true
  | (k, v) :: t =>
      (match k with | .str _ => true | .int _ => false) && strKeysOnly v && strKeysOnlyDict t

end

/-- A record as the Python dict it is. -/
def recVal (r : Record) : PyVal :=
  .dict (r.map (fun kv => (PyKey.str kv.1, kv.2)))

/-- A store as the Python dict it is. -/
def storeVal (s : Store) : PyVal :=
  .dict (s.map (fun ne => (PyKey.str ne.1, PyVal.list (ne.2.map recVal))))

/-- Holds when every value of every record of the store has only string dict
keys, as is the case for all freshly scraped data. -/
def storeStrKeys (s : Store) : Bool :=
  s.all (fun ne => ne.2.all (fun r => r.all (fun kv => strKeysOnly kv.2)))

/-- The scraper state of BehindTheName (lines 29-31): the get_ratings flag
and the two stores of name_info. -/
structure BehindTheName where
  get_ratings : Bool
  first : Store
  last : Store
deriving DecidableEq, Repr

/-- BehindTheName.save (lines 32-35) composed with re-reading the file: the
document dumped is the dict with has_ratings and names, and the file
round-trip stringifies the non-string dict keys. -/
def BehindTheName.save (btn : BehindTheName) : PyVal :=
  jsonVal (.dict
    [(.str "has_ratings", .bool btn.get_ratings),
     (.str "names", .dict
        [(.str "first", storeVal btn.first), (.str "last", storeVal btn.last)])])

/-- Parses one record dict back from a loaded document. -/
def parseRecFields : List (PyKey × PyVal) → Option Record
  | [] => some []
  | (.str k, v) :: t =>
      match parseRecFields t with
      | some r => some ((k, v) :: r)
      | none => none
  | (.int _, _) :: _ => none

def parseRec : PyVal → Option Record
  | .dict kvs => parseRecFields kvs
  | _ => none

def parseRecs : List PyVal → Option (List Record)
  | [] => some []
  | v :: t =>
      match parseRec v, parseRecs t with
      | some r, some rs => some (r :: rs)
      | _, _ => none

def parseStoreEntries : List (PyKey × PyVal) → Option Store
  | [] => some []
  | (.str n, .list eds) :: t =>
      match parseRecs eds, parseStoreEntries t with
      | some rs, some s => some ((n, rs) :: s)
      | _, _ => none
  | _ :: _ => none

def parseStore : PyVal → Option Store
  | .dict kvs => parseStoreEntries kvs
  | _ => none

/-- BehindTheName.load (lines 36-42): read has_ratings and names from the
loaded document.  The source assigns the names value without validation; the
shape parse here is exact on every document the save method writes. -/
def BehindTheName.load (doc : PyVal) : Option BehindTheName :=
  match doc with
  | .dict kvs =>
      match assocGet kvs (PyKey.str "has_ratings"), assocGet kvs (PyKey.str "names") with
      | some (.bool hr), some (.dict nm) =>
          match assocGet nm (PyKey.str "first"), assocGet nm (PyKey.str "last") with
          | some fv, some lv =>
              match parseStore fv, parseStore lv with
              | some f, some l => some ⟨hr, f, l⟩
              | _, _ => none
          | _, _ => none
      | _, _ => none
  | _ => none

/-- NameDB (lines 169-177): a dataclass wrapping the BehindTheName store;
save and load delegate. -/
structure NameDB where
  btn : BehindTheName
deriving DecidableEq, Repr

def NameDB.save (db : NameDB) : PyVal := db.btn.save

def NameDB.load (doc : PyVal) : Option NameDB :=
  (BehindTheName.load doc).map NameDB.mk

/-- The per-gender statistics dict as stored into the record by line 188. -/
def entryVal (g : GenderEntry) : PyVal :=
  .dict (g.map (fun km =>
    (PyKey.str km.1, PyVal.dict (km.2.map (fun yv => (PyKey.int yv.1, yv.2))))))

/-- The matching loop of lines 183-185: scan the sequence for the first entry
whose gender value contains the target gender.  Reading entry with key gender
raises KeyError when the key is absent, and the containment test raises
TypeError on a non-string value; both abort the merge. -/
def findGenderMatch : List Record → String → Except PyErr (Option Nat)
  | [], _ => .ok none
  | e :: rest, g =>
      match assocGet e "gender" with
      | none => .error .keyError
      | some (.str h) =>
          if strContainsSub h g then .ok (some 0)
          else
            match findGenderMatch rest g with
            | .ok o => .ok (o.map (fun i => i + 1))
            | .error err => .error err
      | some _ => .error .typeError

/-- One (name, gender, stats) step of merge_ssa (lines 182-188).  The
setdefault inserts an empty sequence for an unseen name.  On a match the ssa
key of the matched record is set.  With no match the source builds a fresh
minimal record and sets its ssa key, but never appends it to the sequence, so
the store keeps only whatever the setdefault inserted. -/
def mergeGender (first : Store) (name gender : String) (stats : GenderEntry) :
    Except PyErr Store :=
  let p := assocSetdefault first name []
  match findGenderMatch p.2 gender with
  | .error e => .error e
  | .ok (some i) =>
      .ok (assocSet p.1 name (p.2.set i (assocSet (p.2.getD i []) "ssa" (entryVal stats))))
  | .ok none => .ok p.1

def mergeName (first : Store) (name : String) :
    List (String × GenderEntry) → Except PyErr Store
  | [] => .ok first
  | (g, st) :: rest =>
      match mergeGender first name g st with
      | .error e => .error e
      | .ok f2 => mergeName f2 name rest

def mergeStats (first : Store) : Stats → Except PyErr Store
  | [] => .ok first
  | (name, d) :: rest =>
      match mergeName first name d with
      | .error e => .error e
      | .ok f2 => mergeStats f2 rest

/-- NameDB.merge_ssa (lines 178-188) over the accumulated SSA statistics;
only the first store is touched. -/
def NameDB.merge_ssa (db : NameDB) (ssa : Stats) : Except PyErr NameDB :=
  match mergeStats db.btn.first ssa with
  | .ok f2 => .ok ⟨⟨db.btn.get_ratings, f2, db.btn.last⟩⟩
  | .error e => .error e

/-- Concrete SSA per-gender entry used in the merge theorems for C1. -/
def ssaEntryC1 : GenderEntry := [("count", [(2000, PyVal.int 50)])]

/-- A database whose first store does not know the name Avery. -/
def dbC1 : NameDB := ⟨⟨false, [], []⟩⟩

/-- A first-name record carrying a merged ssa payload, whose year keys are
integers. -/
def recC2 : Record :=
  [("gender", PyVal.str "F"), ("ssa", PyVal.dict [(PyKey.int 2000, PyVal.int 1)])]

/-- A populated database after an SSA merge has attached recC2. -/
def dbC2 : NameDB := ⟨⟨false, [("Avery", [recC2])], []⟩⟩

/-- A populated database holding only freshly scraped (string-keyed) data. -/
def dbC2w : NameDB :=
  ⟨⟨false,
    [("Avery", [[("gender", PyVal.str "F"), ("languages", PyVal.list [PyVal.str "English"]),
                 ("descr", PyVal.str "a name")]])],
    [("Smith", [[("languages", PyVal.list []), ("descr", PyVal.str "a surname"),
                 ("submitted", PyVal.bool false)]])]⟩⟩

/-- A record with a gender field containing F. -/
def recC9a : Record := [("gender", PyVal.str "F")]

/-- A record without a gender field. -/
def recC9b : Record := [("descr", PyVal.str "x")]

/-- A database whose sequence for Avery has a matching-gender record first and
a genderless record second. -/
def dbC9 : NameDB := ⟨⟨false, [("Avery", [recC9a, recC9b])], []⟩⟩

/-- Concrete SSA per-gender entry used in the merge theorems for C9. -/
def ssaEntryC9 : GenderEntry := [("rank", [(2001, PyVal.int 3)])]

/-- A listing entry whose rating-page fetch times out. -/
def entryC4 : ListingEntry := ⟨"Edward", true, false, ["English"], ["royal name"], [], .netfail .timeoutError⟩

/-- An existing record in the surname store for the C6 witness. -/
def edsC6 : List Record := [[("descr", PyVal.str "a smith")]]

/-- A surname store binding Smith to edsC6. -/
def storeC6 : Store := [("Smith", edsC6)]

/-- A record sharing the stored descr but differing in other fields. -/
def edC6dup : Record := [("descr", PyVal.str "a smith"), ("submitted", PyVal.bool true)]

/-- A record with a fresh descr. -/
def edC6new : Record := [("descr", PyVal.str "other")]

theorem assocGet_map_set [DecidableEq κ] (l : List (κ × α)) (k : κ) (v : α) :
    assocGet (l.map (fun p => if p.1 = k then (k, v) else p)) k =
      (assocGet l k).map (fun _ => v) := by
  induction l with
  | nil => rfl
  | cons p t ih =>
      obtain ⟨k2, v2⟩ := p
      simp only [List.map_cons]
      by_cases hk : k2 = k
      · subst hk
        rw [if_pos rfl]
        simp [assocGet]
      · rw [if_neg hk]
        simp only [assocGet]
        rw [if_neg hk, if_neg hk]
        exact ih

theorem assocGet_map_set_ne [DecidableEq κ] (l : List (κ × α)) (k k2 : κ) (v : α)
    (hne : k2 ≠ k) :
    assocGet (l.map (fun p => if p.1 = k then (k, v) else p)) k2 = assocGet l k2 := by
  induction l with
  | nil => rfl
  | cons p t ih =>
      obtain ⟨k3, v3⟩ := p
      simp only [List.map_cons]
      by_cases hk : k3 = k
      · subst hk
        rw [if_pos rfl]
        simp only [assocGet]
        rw [if_neg (Ne.symm hne), if_neg (Ne.symm hne)]
        exact ih
      · rw [if_neg hk]
        simp only [assocGet]
        by_cases h2 : k3 = k2
        · rw [if_pos h2, if_pos h2]
        · rw [if_neg h2, if_neg h2]
          exact ih

theorem assocGet_eq_none_of_hasKey_false [DecidableEq κ] (l : List (κ × α)) (k : κ)
    (h : assocHasKey l k = false) : assocGet l k = none := by
  induction l with
  | nil => rfl
  | cons p t ih =>
      obtain ⟨k2, v2⟩ := p
      simp only [assocHasKey, List.any_cons, Bool.or_eq_false_iff,
        decide_eq_false_iff_not] at h
      simp [assocGet, h.1, ih (by simpa [assocHasKey] using h.2)]

theorem assocGet_isSome_of_hasKey [DecidableEq κ] (l : List (κ × α)) (k : κ)
    (h : assocHasKey l k = true) : (assocGet l k).isSome = true := by
  induction l with
  | nil => simp [assocHasKey] at h
  | cons p t ih =>
      obtain ⟨k2, v2⟩ := p
      by_cases hk : k2 = k
      · simp [assocGet, hk]
      · simp only [assocHasKey, List.any_cons, Bool.or_eq_true, decide_eq_true_eq] at h
        rcases h with h | h
        · exact absurd h hk
        · simp [assocGet, hk, ih (by simpa [assocHasKey] using h)]

theorem assocGet_append_left [DecidableEq κ] (l1 l2 : List (κ × α)) (k : κ) (v : α)
    (h : assocGet l1 k = some v) : assocGet (l1 ++ l2) k = some v := by
  induction l1 with
  | nil => simp [assocGet] at h
  | cons p t ih =>
      obtain ⟨k2, v2⟩ := p
      by_cases hk : k2 = k
      · simp only [assocGet, hk, if_true] at h ⊢
        simpa using h
      · simp only [assocGet, hk, if_false, List.cons_append, ite_false] at h ⊢
        exact ih h

theorem assocGet_append_right [DecidableEq κ] (l1 l2 : List (κ × α)) (k : κ)
    (h : assocGet l1 k = none) : assocGet (l1 ++ l2) k = assocGet l2 k := by
  induction l1 with
  | nil => rfl
  | cons p t ih =>
      obtain ⟨k2, v2⟩ := p
      by_cases hk : k2 = k
      · simp [assocGet, hk] at h
      · simp only [assocGet, hk, if_false, List.cons_append, ite_false] at h ⊢
        exact ih h

theorem assocGet_assocSet_self [DecidableEq κ] (l : List (κ × α)) (k : κ) (v : α) :
    assocGet (assocSet l k v) k = some v := by
  unfold assocSet
  by_cases h : assocHasKey l k = true
  · simp only [h, if_true]
    rw [assocGet_map_set]
    have hs := assocGet_isSome_of_hasKey l k h
    cases hg : assocGet l k with
    | none => rw [hg] at hs; simp at hs
    | some w => rfl
  · have hf : assocHasKey l k = false := by simpa using h
    simp only [hf, Bool.false_eq_true, if_false]
    rw [assocGet_append_right _ _ _ (assocGet_eq_none_of_hasKey_false l k hf)]
    simp [assocGet]

theorem assocGet_assocSet_ne [DecidableEq κ] (l : List (κ × α)) (k k2 : κ) (v : α)
    (hne : k2 ≠ k) : assocGet (assocSet l k v) k2 = assocGet l k2 := by
  unfold assocSet
  by_cases h : assocHasKey l k = true
  · simp only [h, if_true]
    exact assocGet_map_set_ne l k k2 v hne
  · have hf : assocHasKey l k = false := by simpa using h
    simp only [hf, Bool.false_eq_true, if_false]
    cases hg : assocGet l k2 with
    | some w => rw [assocGet_append_left _ _ _ _ hg]
    | none =>
        rw [assocGet_append_right _ _ _ hg]
        simp only [assocGet]
        rw [if_neg (Ne.symm hne)]

/-- C7: in pagination discovery with no pagination links found, the surname
scraper of scrape_last_names defaults to exactly one page and visits page 1,
while the first-name scraper of scrape_first_names takes the maximum of an
empty list, which raises ValueError, a precondition violation with no
one-page fallback. -/
theorem pagination_empty_defaults :
    last_name_pages [] = [1] ∧ first_name_pages [] = .error PyErr.valueError := by
  constructor
  · decide
  · rfl

/-- C8: SSA value parsing; under the count criterion the cell text 1,234
parses to the integer 1234 after its thousands separator is removed, and
under the prob criterion the cell text 12.34% parses to the percentage
divided by 100 and rounded to 7 decimal places, the value 0.1234. -/
theorem ssa_value_parsing :
    parseStatValue 'n' "1,234" = .ok (PyVal.int 1234) ∧
    parseStatValue 'p' "12.34%" = .ok (PyVal.float7 1234000) ∧
    float7Val 1234000 = 1234 / 10000 := by
  refine ⟨by decide, by decide, ?_⟩
  norm_num [float7Val]

/-- C1: evaluation at the failing input; when no record of the name matches
the gender, merge_ssa builds the minimal record and sets its ssa key, but
never appends it, so the store ends with Avery bound to the empty sequence
that setdefault inserted, and the statistics are lost; the spec says the
minimal record with gender and ssa is appended. -/
theorem merge_ssa_unmatched_record_dropped :
    NameDB.merge_ssa dbC1 [("Avery", [("F", ssaEntryC1)])] =
      .ok ⟨⟨false, [("Avery", [])], []⟩⟩ ∧
    NameDB.merge_ssa dbC1 [("Avery", [("F", ssaEntryC1)])] ≠
      .ok ⟨⟨false, [("Avery", [[("gender", PyVal.str "F"), ("ssa", entryVal ssaEntryC1)]])], []⟩⟩ := by
  constructor
  · rfl
  · decide

/-- C4: during first-name scraping with ratings enabled, a connectivity or
timeout failure while fetching the rating page makes the whole record for
that entry be skipped, never reaching the store, and processing continues
with the remaining listing entries of the page. -/
theorem rating_fetch_failure_skips_record (store : Store) (e : ListingEntry)
    (rest : List ListingEntry) (err : NetErr) (h : e.ratingFetch = .netfail err) :
    scrape_first_name_page true store (e :: rest) = scrape_first_name_page true store rest := by
  simp only [scrape_first_name_page, scrape_first_name_entry, h, if_true]

theorem rating_fetch_failure_skips_record_witness :
    scrape_first_name_page true [] [entryC4] = scrape_first_name_page true [] [] :=
  rating_fetch_failure_skips_record [] entryC4 [] .timeoutError rfl

/-- C6: in the surname store, a record whose descr equals the descr of some
record already stored under the name leaves the sequence unchanged (same
length, earlier records kept, the new one discarded), whatever its other
fields; a record whose descr differs from the descr of every stored record
is appended, growing the sequence by exactly one. -/
theorem surname_dedup_by_descr (store : Store) (name : String) (ed : Record)
    (eds : List Record) (h : assocGet store name = some eds) :
    (eds.any (fun e0 => pyOptEqB (assocGet ed "descr") (assocGet e0 "descr")) = true →
        appendLastDedup store name ed = store ∧
        assocGet (appendLastDedup store name ed) name = some eds) ∧
    (eds.any (fun e0 => pyOptEqB (assocGet ed "descr") (assocGet e0 "descr")) = false →
        assocGet (appendLastDedup store name ed) name = some (eds ++ [ed]) ∧
        (eds ++ [ed]).length = eds.length + 1) := by
  constructor
  · intro hm
    have h1 : appendLastDedup store name ed = store := by
      simp [appendLastDedup, h, hm]
    exact ⟨h1, by rw [h1, h]⟩
  · intro hm
    have h1 : appendLastDedup store name ed = assocSet store name (eds ++ [ed]) := by
      simp [appendLastDedup, h, hm]
    rw [h1]
    exact ⟨assocGet_assocSet_self _ _ _, by simp⟩

theorem surname_dedup_by_descr_witness :
    (appendLastDedup storeC6 "Smith" edC6dup = storeC6) ∧
    assocGet (appendLastDedup storeC6 "Smith" edC6new) "Smith" =
      some (edsC6 ++ [edC6new]) :=
  ⟨((surname_dedup_by_descr storeC6 "Smith" edC6dup edsC6 (by decide)).1 (by decide)).1,
   ((surname_dedup_by_descr storeC6 "Smith" edC6new edsC6 (by decide)).2 (by decide)).1⟩

/-- C2 counterexample: a populated database holding a merged ssa payload does
not survive the save and load round trip, because json.dump writes the
integer year keys as strings; the loaded database differs from the saved
one. -/
theorem roundtrip_fails_after_merge : NameDB.load (NameDB.save dbC2) ≠ some dbC2 := by
  decide

/-- C9 counterexample: merge_ssa completes without KeyError on a sequence
that does contain a record without a gender field, because the scan stops at
the earlier matching-gender record and never reads the genderless one. -/
theorem merge_ssa_completes_despite_genderless :
    NameDB.merge_ssa dbC9 [("Avery", [("F", ssaEntryC9)])] =
      .ok ⟨⟨false, [("Avery", [[("gender", PyVal.str "F"), ("ssa", entryVal ssaEntryC9)], recC9b])], []⟩⟩ ∧
    NameDB.merge_ssa dbC9 [("Avery", [("F", ssaEntryC9)])] ≠ .error PyErr.keyError := by
  constructor
  · rfl
  · decide

/-- C3 counterexample: normalize_name is not idempotent on every string; at
the string (1)2 one application strips only the trailing 2, and a second
application strips the remaining parenthesised 1. -/
theorem normalize_name_not_idempotent :
    ¬ (normalize_name (normalize_name "(1)2") = normalize_name "(1)2") := by
  decide

/-- A database whose sequence for Avery has a genderless record after a
non-matching record, so the merge scan reaches it. -/
def dbC9w : NameDB := ⟨⟨false, [("Avery", [[("gender", PyVal.str "M")], recC9b])], []⟩⟩

/-- Concrete SSA per-gender entry used in the merge theorems for C10. -/
def ssaEntryC10 : GenderEntry := [("prob", [(1999, PyVal.float7 123)])]

/-- A sequence whose first matching record for gender F is at index 1. -/
def entriesC10 : List Record := [[("gender", PyVal.str "M")], [("gender", PyVal.str "MF")]]

/-- A database exercising the frame theorem: another first name, a surname
store and the ratings flag must all survive the merge untouched. -/
def dbC10 : NameDB := ⟨⟨true, [("Avery", entriesC10), ("Zoe", [])], [("Smith", [[("descr", PyVal.str "d")]])]⟩⟩

/-- C9 amended: merge_ssa raises KeyError exactly when the scan reaches a
record without a gender field, that is when some genderless record precedes
every matching-gender record of the sequence; a genderless record behind the
first match is never read. -/
theorem merge_ssa_keyerror_when_genderless_unguarded
    (db : NameDB) (name gender : String) (stats : GenderEntry)
    (pre : List Record) (bad : Record) (rest : List Record)
    (hget : assocGet db.btn.first name = some (pre ++ bad :: rest))
    (hbad : assocGet bad "gender" = none)
    (hpre : ∀ r ∈ pre, ∃ g, assocGet r "gender" = some (PyVal.str g) ∧
        strContainsSub g gender = false) :
    NameDB.merge_ssa db [(name, [(gender, stats)])] = .error PyErr.keyError := by
  have hfind : ∀ (l : List Record),
      (∀ r ∈ l, ∃ g, assocGet r "gender" = some (PyVal.str g) ∧
          strContainsSub g gender = false) →
      findGenderMatch (l ++ bad :: rest) gender = .error PyErr.keyError := by
    intro l
    induction l with
    | nil => intro _; simp [findGenderMatch, hbad]
    | cons r t ih =>
        intro hl
        obtain ⟨g, hg, hgc⟩ := hl r (List.mem_cons_self r t)
        have ht := ih (fun r2 hr2 => hl r2 (List.mem_cons_of_mem r hr2))
        simp [findGenderMatch, hg, hgc, ht]
  have h2 := hfind pre hpre
  unfold NameDB.merge_ssa mergeStats mergeName mergeGender
  simp [assocSetdefault, hget, h2]

theorem merge_ssa_keyerror_witness :
    NameDB.merge_ssa dbC9w [("Avery", [("F", ssaEntryC9)])] = .error PyErr.keyError :=
  merge_ssa_keyerror_when_genderless_unguarded dbC9w "Avery" "F" ssaEntryC9
    [[("gender", PyVal.str "M")]] recC9b [] (by decide) (by decide)
    (by
      intro r hr
      simp only [List.mem_singleton] at hr
      subst hr
      exact ⟨"M", by decide, by decide⟩)

/-- C10: when merge_ssa finds a matching-gender record for a name, only that
record changes and only at its ssa key; every other key of the matched
record, every other record of the sequence, every other name of the first
store, the last store and the ratings flag are unchanged. -/
theorem merge_ssa_match_frame (db : NameDB) (name gender : String)
    (stats : GenderEntry) (entries : List Record) (i : Nat)
    (hget : assocGet db.btn.first name = some entries)
    (hmatch : findGenderMatch entries gender = .ok (some i))
    (_hlen : i < entries.length) :
    NameDB.merge_ssa db [(name, [(gender, stats)])] =
      .ok ⟨⟨db.btn.get_ratings,
            assocSet db.btn.first name
              (entries.set i (assocSet (entries.getD i []) "ssa" (entryVal stats))),
            db.btn.last⟩⟩ ∧
    (∀ n, n ≠ name →
        assocGet (assocSet db.btn.first name
            (entries.set i (assocSet (entries.getD i []) "ssa" (entryVal stats)))) n =
          assocGet db.btn.first n) ∧
    assocGet (assocSet db.btn.first name
        (entries.set i (assocSet (entries.getD i []) "ssa" (entryVal stats)))) name =
      some (entries.set i (assocSet (entries.getD i []) "ssa" (entryVal stats))) ∧
    (entries.set i (assocSet (entries.getD i []) "ssa" (entryVal stats))).length =
      entries.length ∧
    (∀ j, j ≠ i →
        (entries.set i (assocSet (entries.getD i []) "ssa" (entryVal stats)))[j]? =
          entries[j]?) ∧
    (∀ k2, k2 ≠ "ssa" →
        assocGet (assocSet (entries.getD i []) "ssa" (entryVal stats)) k2 =
          assocGet (entries.getD i []) k2) ∧
    assocGet (assocSet (entries.getD i []) "ssa" (entryVal stats)) "ssa" =
      some (entryVal stats) := by
  refine ⟨?_, ?_, ?_, ?_, ?_, ?_, ?_⟩
  · simp [NameDB.merge_ssa, mergeStats, mergeName, mergeGender, assocSetdefault, hget, hmatch]
  · intro n hn
    exact assocGet_assocSet_ne _ _ _ _ hn
  · exact assocGet_assocSet_self _ _ _
  · exact List.length_set entries i _
  · intro j hj
    exact List.getElem?_set_ne (fun he => hj he.symm)
  · intro k2 hk2
    exact assocGet_assocSet_ne _ _ _ _ hk2
  · exact assocGet_assocSet_self _ _ _

theorem merge_ssa_match_frame_witness :
    NameDB.merge_ssa dbC10 [("Avery", [("F", ssaEntryC10)])] =
      .ok ⟨⟨true,
            assocSet dbC10.btn.first "Avery"
              (entriesC10.set 1 (assocSet (entriesC10.getD 1 []) "ssa" (entryVal ssaEntryC10))),
            dbC10.btn.last⟩⟩ :=
  (merge_ssa_match_frame dbC10 "Avery" "F" ssaEntryC10 entriesC10 1
    (by decide) (by decide) (by decide)).1

/-- An SSA ranking table whose header and footer rows are malformed on
purpose, whose first data row is valid with empty name cells, and whose
second data row has only three columns. -/
def rowsC5 : List (List String) := [["h"], ["1", "", "0", "", "0"], ["2", "Bob", "9"], ["f"]]

theorem stepRow_ok_rowCheck (crit : Char) (critName : String) (year : Int)
    (stats : Stats) (i : Nat) (cols : List String) (s2 : Stats)
    (h : stepRow crit critName year stats i cols = .ok s2) :
    rowCheck i cols = .ok () := by
  unfold stepRow at h
  cases hrc : rowCheck i cols with
  | error e => rw [hrc] at h; simp at h
  | ok u => cases u; rfl

theorem processRows_ok_all (crit : Char) (critName : String) (year : Int) :
    ∀ (l : List (List String)) (stats : Stats) (n : Nat) (res : Stats),
      processRows crit critName year stats n l = .ok res →
      ∀ i (hi : i < l.length), rowCheck (n + i) (l.get ⟨i, hi⟩) = .ok () := by
  intro l
  induction l with
  | nil => intro stats n res h i hi; simp at hi
  | cons cols rest ih =>
      intro stats n res h i hi
      unfold processRows at h
      cases hs : stepRow crit critName year stats n cols with
      | error e => rw [hs] at h; simp at h
      | ok s2 =>
          rw [hs] at h
          cases i with
          | zero =>
              simpa using stepRow_ok_rowCheck crit critName year stats n cols s2 hs
          | succ j =>
              have hj : j < rest.length := by simpa using hi
              have h2 := ih s2 (n + 1) res h j hj
              have harith : n + 1 + j = n + (j + 1) := by omega
              rw [harith] at h2
              simpa using h2

theorem processRows_append (crit : Char) (critName : String) (year : Int) :
    ∀ (l1 l2 : List (List String)) (stats : Stats) (n : Nat),
      processRows crit critName year stats n (l1 ++ l2) =
        match processRows crit critName year stats n l1 with
        | .ok s2 => processRows crit critName year s2 (n + l1.length) l2
        | .error e => .error e := by
  intro l1
  induction l1 with
  | nil => intro l2 stats n; simp [processRows]
  | cons cols rest ih =>
      intro l2 stats n
      cases hs : stepRow crit critName year stats n cols with
      | error e => simp [processRows, hs]
      | ok s2 =>
          simp only [List.cons_append, processRows, hs]
          show processRows crit critName year s2 (n + 1) (rest ++ l2) = _
          rw [ih]
          cases hp : processRows crit critName year s2 (n + 1) rest with
          | error e => rfl
          | ok s3 =>
              simp only [List.length_cons]
              have harith : n + 1 + rest.length = n + (rest.length + 1) := by omega
              rw [harith]

/-- C5: every row the Statistics Scraper processes, namely every row of the
slice rows[1:-1], is validated first; a successful scrape of the table means
every processed row had exactly 5 text columns with the first equal to the
1-based index, a processed row failing the validation after a well-processed
prefix halts the scrape with exactly the validation error (an assertion
failure for a wrong column count or wrong rank, a ValueError for an
unparsable rank cell), and a scrape over a table with any invalid processed
row can never return ok: the row is never silently skipped. -/
theorem ssa_row_validation_halts (crit : Char) (critName : String) (year : Int)
    (stats : Stats) (rows : List (List String)) :
    (∀ res, scrapeTable crit critName year stats rows = .ok res →
        ∀ i (hi : i < ((rows.drop 1).dropLast).length),
          rowCheck i (((rows.drop 1).dropLast).get ⟨i, hi⟩) = .ok ()) ∧
    (∀ i (hi : i < ((rows.drop 1).dropLast).length) (e : PyErr) (s2 : Stats),
        rowCheck i (((rows.drop 1).dropLast).get ⟨i, hi⟩) = .error e →
        processRows crit critName year stats 0 (((rows.drop 1).dropLast).take i) = .ok s2 →
        scrapeTable crit critName year stats rows = .error e) ∧
    (∀ i (hi : i < ((rows.drop 1).dropLast).length),
        rowCheck i (((rows.drop 1).dropLast).get ⟨i, hi⟩) ≠ .ok () →
        ∀ res, scrapeTable crit critName year stats rows ≠ .ok res) := by
  refine ⟨?_, ?_, ?_⟩
  · intro res h i hi
    simpa using processRows_ok_all crit critName year _ stats 0 res h i hi
  · intro i hi e s2 hrc hpre
    unfold scrapeTable
    have hsplit : (rows.drop 1).dropLast =
        ((rows.drop 1).dropLast).take i ++
          ((rows.drop 1).dropLast).get ⟨i, hi⟩ :: ((rows.drop 1).dropLast).drop (i + 1) := by
      conv_lhs => rw [← List.take_append_drop i ((rows.drop 1).dropLast)]
      rw [List.drop_eq_getElem_cons hi]
      rfl
    rw [hsplit, processRows_append, hpre]
    have hlen : (((rows.drop 1).dropLast).take i).length = i := by
      rw [List.length_take]
      exact Nat.min_eq_left (Nat.le_of_lt hi)
    rw [hlen]
    simp only [Nat.zero_add, processRows]
    unfold stepRow
    rw [hrc]
  · intro i hi hrc res hok
    exact hrc (by simpa using processRows_ok_all crit critName year _ stats 0 res hok i hi)

theorem ssa_row_validation_halts_witness :
    scrapeTable 'n' "count" 2005 [] rowsC5 = .error PyErr.assertionError :=
  (ssa_row_validation_halts 'n' "count" 2005 [] rowsC5).2.1 1 (by decide)
    PyErr.assertionError [] (by decide) (by decide)

mutual

theorem jsonVal_eq_self : ∀ v : PyVal, strKeysOnly v = true → jsonVal v = v
  | .str _, _ => rfl
  | .int _, _ => rfl
  | .bool _, _ => rfl
  | .float7 _, _ => rfl
  | .list xs, h => by
      simp only [jsonVal]
      rw [jsonValList_eq_self xs (by simpa [strKeysOnly] using h)]
  | .dict kvs, h => by
      simp only [jsonVal]
      rw [jsonDictList_eq_self kvs (by simpa [strKeysOnly] using h)]

theorem jsonValList_eq_self : ∀ xs : List PyVal, strKeysOnlyList xs = true → jsonValList xs = xs
  | [], _ => rfl
  | v :: t, h => by
      simp only [strKeysOnlyList, Bool.and_eq_true] at h
      simp only [jsonValList]
      rw [jsonVal_eq_self v h.1, jsonValList_eq_self t h.2]

theorem jsonDictList_eq_self : ∀ kvs : List (PyKey × PyVal), strKeysOnlyDict kvs = true →
    jsonDictList kvs = kvs
  | [], _ => rfl
  | (k, v) :: t, h => by
      simp only [strKeysOnlyDict, Bool.and_eq_true] at h
      obtain ⟨⟨hk, hv⟩, ht⟩ := h
      simp only [jsonDictList]
      rw [jsonVal_eq_self v hv, jsonDictList_eq_self t ht]
      cases k with
      | str s => rfl
      | int n => simp at hk

end

theorem recVal_strKeys (r : Record) (h : r.all (fun kv => strKeysOnly kv.2) = true) :
    strKeysOnly (recVal r) = true := by
  induction r with
  | nil => rfl
  | cons kv t ih =>
      obtain ⟨k, v⟩ := kv
      simp only [List.all_cons, Bool.and_eq_true] at h
      simp only [recVal, List.map_cons, strKeysOnly, strKeysOnlyDict, Bool.true_and,
        Bool.and_eq_true]
      exact ⟨h.1, by simpa [recVal, strKeysOnly] using ih h.2⟩

theorem recsVal_strKeys (eds : List Record)
    (h : eds.all (fun r => r.all (fun kv => strKeysOnly kv.2)) = true) :
    strKeysOnlyList (eds.map recVal) = true := by
  induction eds with
  | nil => rfl
  | cons r t ih =>
      simp only [List.all_cons, Bool.and_eq_true] at h
      simp only [List.map_cons, strKeysOnlyList, Bool.and_eq_true]
      exact ⟨recVal_strKeys r h.1, ih h.2⟩

theorem storeVal_strKeys (s : Store) (h : storeStrKeys s = true) :
    strKeysOnly (storeVal s) = true := by
  induction s with
  | nil => rfl
  | cons ne t ih =>
      obtain ⟨n, eds⟩ := ne
      simp only [storeStrKeys, List.all_cons, Bool.and_eq_true] at h
      simp only [storeVal, List.map_cons, strKeysOnly, strKeysOnlyDict, Bool.true_and,
        Bool.and_eq_true]
      refine ⟨?_, ?_⟩
      · simpa [strKeysOnly] using recsVal_strKeys eds h.1
      · simpa [storeVal, strKeysOnly, storeStrKeys] using ih h.2

theorem parseRecFields_map (r : Record) :
    parseRecFields (r.map (fun kv => (PyKey.str kv.1, kv.2))) = some r := by
  induction r with
  | nil => rfl
  | cons kv t ih =>
      obtain ⟨k, v⟩ := kv
      simp only [List.map_cons, parseRecFields, ih]

theorem parseRec_recVal (r : Record) : parseRec (recVal r) = some r := by
  simp only [recVal, parseRec]
  exact parseRecFields_map r

theorem parseRecs_map (eds : List Record) : parseRecs (eds.map recVal) = some eds := by
  induction eds with
  | nil => rfl
  | cons r t ih => simp only [List.map_cons, parseRecs, parseRec_recVal, ih]

theorem parseStoreEntries_map (s : Store) :
    parseStoreEntries (s.map (fun ne => (PyKey.str ne.1, PyVal.list (ne.2.map recVal)))) =
      some s := by
  induction s with
  | nil => rfl
  | cons ne t ih =>
      obtain ⟨n, eds⟩ := ne
      simp only [List.map_cons, parseStoreEntries, parseRecs_map, ih]

theorem parseStore_storeVal (s : Store) : parseStore (storeVal s) = some s := by
  simp only [storeVal, parseStore]
  exact parseStoreEntries_map s

/-- C2 amended: the save and load round trip returns the database unchanged
for every database whose record values carry only string dict keys, which
holds for all freshly scraped data; merging SSA statistics attaches dicts
with integer year keys, and the round trip then returns a database with
those keys turned into strings instead of the original. -/
theorem namedb_roundtrip_of_string_keys (db : NameDB)
    (hf : storeStrKeys db.btn.first = true) (hl : storeStrKeys db.btn.last = true) :
    NameDB.load (NameDB.save db) = some db := by
  have h1 : jsonVal (storeVal db.btn.first) = storeVal db.btn.first :=
    jsonVal_eq_self _ (storeVal_strKeys _ hf)
  have h2 : jsonVal (storeVal db.btn.last) = storeVal db.btn.last :=
    jsonVal_eq_self _ (storeVal_strKeys _ hl)
  obtain ⟨⟨gr, f, l⟩⟩ := db
  simp only at h1 h2
  have hsave : NameDB.save ⟨⟨gr, f, l⟩⟩ =
      .dict [(.str "has_ratings", .bool gr),
             (.str "names", .dict [(.str "first", jsonVal (storeVal f)),
                                   (.str "last", jsonVal (storeVal l))])] := rfl
  rw [hsave, h1, h2]
  simp [NameDB.load, BehindTheName.load, assocGet, parseStore_storeVal]

theorem namedb_roundtrip_witness :
    storeStrKeys dbC2w.btn.first = true ∧ storeStrKeys dbC2w.btn.last = true ∧
    NameDB.load (NameDB.save dbC2w) = some dbC2w :=
  ⟨by decide, by decide, namedb_roundtrip_of_string_keys dbC2w (by decide) (by decide)⟩

theorem dropWhile_dropWhile_same (p : α → Bool) (l : List α) :
    (l.dropWhile p).dropWhile p = l.dropWhile p := by
  induction l with
  | nil => rfl
  | cons a t ih =>
      by_cases h : p a = true
      · simp [List.dropWhile_cons, h, ih]
      · simp [List.dropWhile_cons, h]

theorem dropWhile_head_false (p : α → Bool) (l : List α) (a : α) (t : List α)
    (h : l.dropWhile p = a :: t) : p a = false := by
  induction l with
  | nil => simp at h
  | cons b r ih =>
      rw [List.dropWhile_cons] at h
      by_cases hb : p b = true
      · rw [if_pos hb] at h
        exact ih h
      · rw [if_neg hb] at h
        cases h
        simpa using hb

theorem pyStripChars_idem (l : List Char) : pyStripChars (pyStripChars l) = pyStripChars l := by
  unfold pyStripChars
  set A := l.dropWhile isPySpace with hA
  set B := A.reverse.dropWhile isPySpace with hB
  have hBB : B.dropWhile isPySpace = B := by
    rw [hB]
    exact dropWhile_dropWhile_same _ _
  have h1 : B.reverse.dropWhile isPySpace = B.reverse := by
    cases hC : B.reverse with
    | nil => rfl
    | cons c t =>
        have hsuf : List.IsSuffix B A.reverse := by
          rw [hB]
          exact List.dropWhile_suffix isPySpace
        obtain ⟨u, hu⟩ := hsuf
        have hA2 : A = B.reverse ++ u.reverse := by
          have h3 := congrArg List.reverse hu
          rw [List.reverse_append, List.reverse_reverse] at h3
          exact h3.symm
        rw [hC] at hA2
        have hld : l.dropWhile isPySpace = c :: (t ++ u.reverse) := by
          rw [← hA, hA2]
          rfl
        have hpc : isPySpace c = false :=
          dropWhile_head_false isPySpace l c (t ++ u.reverse) hld
        rw [List.dropWhile_cons, if_neg (by simp [hpc])]
  rw [h1, List.reverse_reverse, hBB]

theorem takeWhile_isDigit_nil (l : List Char) (h : ∀ c ∈ l, c.isDigit = false) :
    l.takeWhile Char.isDigit = [] := by
  cases l with
  | nil => rfl
  | cons c t =>
      rw [List.takeWhile_cons, if_neg (by simp [h c (List.mem_cons_self c t)])]

theorem stripNumSuffixRev_id (l : List Char) (h : ∀ c ∈ l, c.isDigit = false) :
    stripNumSuffixRev l = l := by
  cases l with
  | nil => rfl
  | cons c rest =>
      by_cases hc : c = ')'
      · subst hc
        have ht := takeWhile_isDigit_nil rest (fun c2 hc2 => h c2 (List.mem_cons_of_mem _ hc2))
        simp [stripNumSuffixRev, ht]
      · have hcd : c.isDigit = false := h c (List.mem_cons_self c rest)
        simp [stripNumSuffixRev, hc, hcd]

theorem reSubNumSuffix_id (l : List Char) (h : ∀ c ∈ l, c.isDigit = false) :
    reSubNumSuffix l = l := by
  unfold reSubNumSuffix
  by_cases hnl : l.getLast? = some '\n'
  · rw [if_pos hnl]
    have hdl : ∀ c ∈ l.dropLast.reverse, c.isDigit = false := by
      intro c hc
      rw [List.mem_reverse] at hc
      exact h c (List.dropLast_subset l hc)
    rw [stripNumSuffixRev_id _ hdl, List.reverse_reverse]
    have hne : l ≠ [] := by
      intro e
      rw [e] at hnl
      simp at hnl
    have hlast : l.getLast hne = '\n' := by
      have h4 := List.getLast?_eq_getLast_of_ne_nil hne
      rw [h4] at hnl
      exact Option.some.inj hnl
    calc l.dropLast ++ ['\n'] = l.dropLast ++ [l.getLast hne] := by rw [hlast]
      _ = l := List.dropLast_append_getLast hne
  · rw [if_neg hnl]
    have hr : ∀ c ∈ l.reverse, c.isDigit = false := by
      intro c hc
      rw [List.mem_reverse] at hc
      exact h c hc
    rw [stripNumSuffixRev_id _ hr, List.reverse_reverse]

theorem mem_of_mem_pyStripChars (l : List Char) (c : Char) (hc : c ∈ pyStripChars l) :
    c ∈ l := by
  unfold pyStripChars at hc
  rw [List.mem_reverse] at hc
  have h2 : c ∈ (l.dropWhile isPySpace).reverse :=
    (List.dropWhile_sublist isPySpace).subset hc
  rw [List.mem_reverse] at h2
  exact (List.dropWhile_sublist isPySpace).subset h2

/-- C3 amended: the concrete normalizations hold, with normalize_name of
Alex(2) and of Alex 2 both Alex, and normalize_name is idempotent on every
string containing no digit; it is not idempotent on all strings, since a
second trailing number can become exposed once the first is stripped. -/
theorem normalize_name_examples_and_digitfree_idempotent :
    normalize_name "Alex(2)" = "Alex" ∧ normalize_name "Alex 2" = "Alex" ∧
    ∀ s : String, (∀ c ∈ s.data, c.isDigit = false) →
      normalize_name (normalize_name s) = normalize_name s := by
  refine ⟨by decide, by decide, ?_⟩
  intro s h
  unfold normalize_name
  rw [reSubNumSuffix_id s.data h]
  show (⟨pyStripChars (reSubNumSuffix (pyStripChars s.data))⟩ : String) =
    ⟨pyStripChars s.data⟩
  rw [reSubNumSuffix_id _ (fun c hc => h c (mem_of_mem_pyStripChars s.data c hc))]
  rw [pyStripChars_idem]

theorem normalize_name_digitfree_witness :
    normalize_name (normalize_name "Mc Carthy") = normalize_name "Mc Carthy" :=
  normalize_name_examples_and_digitfree_idempotent.2.2 "Mc Carthy" (by decide)
